import Mathlib

/-!
Shallow embedding of `ct-diag-server`, package `diag` (`src/diag/diag.go`).

Modelling conventions:
* bytes are `Nat` values (< 256 in well-formed data); byte buffers are `List Nat`;
* `time.Time` is modelled as `Int` (an abstract instant); the Go zero value
  `time.Time{}` is `0`;
* Go `error` results are `Option GoErr` (`none` = nil error) or
  `Except GoErr α` for `(α, error)` pairs;
* the `Repository` and `Cache` interfaces are modelled as records of result
  oracles: the outcome each interface call would return. `Service` methods are
  translated call by call against those oracles, and side effects that the
  claims mention (repository writes, cache adds) are recorded in explicit
  effect traces.
-/

/-- Model of the Go `error` values that appear in `diag.go`:
the two package sentinels, `io.EOF`, `io.ErrUnexpectedEOF`, `errors.New`
messages, `fmt.Errorf("...: %v", err)` wrapping, and arbitrary collaborator
errors. -/
inductive GoErr where
  | nilDiagKeys
  | maxUploadExceeded
  | eof
  | unexpectedEOF
  | msg : String → GoErr
  | wrap : String → GoErr → GoErr
deriving DecidableEq, Repr

deriving instance DecidableEq for Except

/-- `DiagnosisKeySize` (diag.go line 21): 16-byte `TemporaryExposureKey`
plus 4-byte `ENIntervalNumber`. -/
def DiagnosisKeySize : Nat := 20

/-- `defaultMaxUploadBatchSize` (diag.go line 23). -/
def defaultMaxUploadBatchSize : Nat := 14

/-- `DiagnosisKey` (diag.go lines 37-49). `TemporaryExposureKey` is a Go
`[16]byte`, modelled as a byte list (exactly 16 bytes in well-formed data);
`ENIntervalNumber` is a `uint32`; `UploadedAt` is a `time.Time`. -/
structure DiagnosisKey where
  temporaryExposureKey : List Nat
  eNIntervalNumber : Nat
  uploadedAt : Int
deriving DecidableEq, Repr

/-- Structural well-formedness of a record, mirroring the Go types: the key
array holds exactly 16 bytes, each byte below 256, and the interval fits in
an unsigned 32-bit integer. -/
def WellFormedKey (k : DiagnosisKey) : Prop :=
  k.temporaryExposureKey.length = 16 ∧
    (∀ b ∈ k.temporaryExposureKey, b < 256) ∧
    k.eNIntervalNumber < 2 ^ 32

instance (k : DiagnosisKey) : Decidable (WellFormedKey k) := by
  unfold WellFormedKey; infer_instance

/-- Model of `binary.BigEndian.PutUint32` (diag.go line 199): the four bytes
of `n`, most significant first; `byte(v >> s)` truncates modulo 256. -/
def putUint32 (n : Nat) : List Nat :=
  [n / 2 ^ 24 % 256, n / 2 ^ 16 % 256, n / 2 ^ 8 % 256, n % 256]

/-- Model of `binary.BigEndian.Uint32` (diag.go line 162). Go panics when the
slice holds fewer than 4 bytes; all call sites here slice exactly 4 bytes, so
the `getD` defaults are never used. -/
def uint32BE (b : List Nat) : Nat :=
  b.getD 0 0 * 2 ^ 24 + b.getD 1 0 * 2 ^ 16 + b.getD 2 0 * 2 ^ 8 + b.getD 3 0

/-- `writeDiagnosisKeys` (diag.go lines 188-207) instantiated with a byte
buffer as the `io.Writer` (every write succeeds and appends): per key, the 16
key bytes are written, then 4 bytes of big-endian `ENIntervalNumber`, with no
delimiter. -/
def writeDiagnosisKeys : List DiagnosisKey → List Nat
  | [] => []
  | k :: rest =>
      k.temporaryExposureKey ++ putUint32 k.eNIntervalNumber ++ writeDiagnosisKeys rest

/-- `writeDiagnosisKeys` (diag.go lines 188-207) against an arbitrary
`io.Writer`, modelled by the oracle `write`: the error (if any) each chunk
write returns. The loop performs two writes per key and stops at the first
error. -/
def writeDiagnosisKeysW (write : List Nat → Option GoErr) : List DiagnosisKey → Option GoErr
  | [] => none
  | k :: rest =>
      match write k.temporaryExposureKey with
      | some err => some err
      | none =>
          match write (putUint32 k.eNIntervalNumber) with
          | some err => some err
          | none => writeDiagnosisKeysW write rest

/-- The record the parse loop body (diag.go lines 158-165) builds from one
20-byte frame: bytes 0-15 are the key, bytes 16-19 the big-endian interval;
`UploadedAt` is left at the `time.Time` zero value. -/
def decodeFrame (f : List Nat) : DiagnosisKey :=
  { temporaryExposureKey := f.take 16
    eNIntervalNumber := uint32BE ((f.drop 16).take 4)
    uploadedAt := 0 }

/-- The parse loop of `ParseDiagnosisKeys` (diag.go lines 155-165): record `i`
is decoded from bytes `[start, start+20)` of the buffer, where
`start = i * DiagnosisKeySize` (inlined here): bytes `[start, start+16)` are
the key and bytes `[start+16, start+20)` the big-endian interval. -/
def parseLoop (buf : List Nat) : List DiagnosisKey :=
  (List.range (buf.length / DiagnosisKeySize)).map fun i =>
    { temporaryExposureKey := (buf.drop (i * DiagnosisKeySize)).take 16
      eNIntervalNumber := uint32BE ((buf.drop (i * DiagnosisKeySize + 16)).take 4)
      uploadedAt := 0 }

/-- The length checks and loop of `ParseDiagnosisKeys` (diag.go lines
144-168) applied to the bytes `ioutil.ReadAll` delivered: a zero-length or
non-multiple-of-20 buffer is `io.ErrUnexpectedEOF`. -/
def ParseDiagnosisKeysBuf (buf : List Nat) : Except GoErr (List DiagnosisKey) :=
  let n := buf.length
  if n = 0 then .error .unexpectedEOF
  else if n % DiagnosisKeySize ≠ 0 then .error .unexpectedEOF
  else .ok (parseLoop buf)

/-- The outcome of `ioutil.ReadAll(r)` (diag.go line 143): the bytes read and
the error returned. -/
structure ReadResult where
  buf : List Nat
  err : Option GoErr
deriving DecidableEq, Repr

/-- `ParseDiagnosisKeys` (diag.go lines 142-168). The first switch case
returns the read error when it is non-nil and not `io.EOF`; otherwise the
length checks and the frame loop run on the buffer. -/
def ParseDiagnosisKeys (r : ReadResult) : Except GoErr (List DiagnosisKey) :=
  match r.err with
  | some e => if e = .eof then ParseDiagnosisKeysBuf r.buf else .error e
  | none => ParseDiagnosisKeysBuf r.buf

/-- A record with its `UploadedAt` reset to the `time.Time` zero value, as
`ParseDiagnosisKeys` produces it (diag.go line 164 sets only the key and the
interval). -/
def clearUploadedAt (k : DiagnosisKey) : DiagnosisKey :=
  { k with uploadedAt := 0 }

/-- The `Repository` interface (diag.go lines 53-57), as the results its
three calls would return during one `Service` operation:
`StoreDiagnosisKeys(ctx, diagKeys, createdAt)` keyed by its arguments,
`FindAllDiagnosisKeys(ctx)` and `LastModified(ctx)` as single outcomes. -/
structure Repository where
  storeDiagnosisKeys : List DiagnosisKey → Int → Option GoErr
  findAllDiagnosisKeys : Except GoErr (List DiagnosisKey)
  lastModified : Except GoErr Int

/-- The `Cache` interface as `diag.go` consumes it (`Set`, `Add`,
`ReadSeeker(time.Time{}).Seek(0, io.SeekEnd)`): the error each call would
return, and for the seek the size it would report. The interface itself is
declared outside `src/diag/diag.go`. -/
structure Cache where
  set : List DiagnosisKey → Int → Option GoErr
  add : List DiagnosisKey → Int → Option GoErr
  seekEnd : Except GoErr Int

/-- Modelled from the spec: the `MemoryCache` implementation is not under
`src/` (only `NewService` line 89 constructs `&MemoryCache{}`). The spec says
an unset cache "defaults to empty in-memory cache"; an in-memory `Set`, `Add`
and seek never fail, and the fresh empty cache has size 0. -/
def MemoryCache.empty : Cache :=
  { set := fun _ _ => none
    add := fun _ _ => none
    seekEnd := .ok 0 }

/-- `Service` (diag.go lines 60-65). The logger is non-nil by construction
(it is only adjusted, never read, by the modelled operations). -/
structure Service where
  repo : Repository
  cache : Cache
  maxUploadBatchSize : Nat
  logger : Unit

/-- `Config` (diag.go lines 68-73). A nil interface or pointer field is
`none`; `MaxUploadBatchSize` is a Go `uint`. The `*zap.Logger` carries no
behaviour the model needs, so it is `Option Unit` (nil or present). -/
structure Config where
  repository : Repository
  cache : Option Cache
  maxUploadBatchSize : Nat
  logger : Option Unit

/-- `Service.hydrateCache` (diag.go lines 209-228): the repository read
errors propagate, except that `ErrNilDiagKeys` from `LastModified` returns
nil; otherwise the cache `Set` result is returned. -/
def Service.hydrateCache (s : Service) : Option GoErr :=
  match s.repo.findAllDiagnosisKeys with
  | .error err => some err
  | .ok diagKeys =>
      match s.repo.lastModified with
      | .error err => if err = .nilDiagKeys then none else some err
      | .ok lastModified => s.cache.set diagKeys lastModified

/-- `NewService` (diag.go lines 76-115): nil logger is rejected; a nil
`cfg.Cache` defaults to a fresh `&MemoryCache{}` and a zero
`cfg.MaxUploadBatchSize` to `defaultMaxUploadBatchSize`; then the cache is
hydrated and seeked, each failure aborting construction with a wrapped
error. The background `refreshCache` goroutine (lines 108-112) is modelled
separately by `refreshCacheStep`/`refreshCacheRun`. -/
def NewService (cfg : Config) : Except GoErr Service :=
  if cfg.logger = none then .error (.msg "diag: logger cannot be nil")
  else
    let svc : Service :=
      { repo := cfg.repository
        cache := match cfg.cache with
          | none => MemoryCache.empty
          | some c => c
        maxUploadBatchSize :=
          if cfg.maxUploadBatchSize = 0 then defaultMaxUploadBatchSize
          else cfg.maxUploadBatchSize
        logger := () }
    match svc.hydrateCache with
    | some err => .error (.wrap "diag: could not hydrate cache" err)
    | none =>
        match svc.cache.seekEnd with
        | .error err => .error (.wrap "diag: could not seek cache" err)
        | .ok _n => .ok svc

/-- `Service.MaxUploadBatchSize` (diag.go lines 184-186). -/
def Service.MaxUploadBatchSize (s : Service) : Nat :=
  s.maxUploadBatchSize

/-- Observable outcome of one `Service.StoreDiagnosisKeys` call: the error
returned to the caller, the `Repository.StoreDiagnosisKeys` calls performed
(arguments in call order) and the cache `Add` calls triggered. -/
structure StoreOutcome where
  result : Option GoErr
  repoWrites : List (List DiagnosisKey × Int)
  cacheAdds : List (List DiagnosisKey × Int)
deriving DecidableEq, Repr

/-- `Service.StoreDiagnosisKeys` (diag.go lines 118-134): `now` is the
`time.Now().UTC()` timestamp of the call. The repository write is always
performed; on its failure the error is returned and no goroutine is started;
on success the goroutine calls `cache.Add` (its failure is only logged) and
nil is returned. -/
def Service.StoreDiagnosisKeys (s : Service) (now : Int) (diagKeys : List DiagnosisKey) :
    StoreOutcome :=
  match s.repo.storeDiagnosisKeys diagKeys now with
  | some err =>
      { result := some err
        repoWrites := [(diagKeys, now)]
        cacheAdds := [] }
  | none =>
      { result := none
        repoWrites := [(diagKeys, now)]
        cacheAdds := [(diagKeys, now)] }

/-- One wake-up of the `refreshCache` select loop (diag.go lines 232-249):
either the context was cancelled (carrying `ctx.Err()`), or the ticker fired
and the hydration and seek of that tick produced the recorded results. -/
inductive LoopEvent where
  | cancelled : GoErr → LoopEvent
  | tick : Option GoErr → Except GoErr Int → LoopEvent
deriving DecidableEq, Repr

/-- One iteration of `Service.refreshCache` (diag.go lines 230-250):
`some err` means the loop returns `err`; `none` means it continues with the
next iteration. Cancellation returns `ctx.Err()`; on a tick, a hydration or
seek failure is logged and the loop continues, as does success. -/
def refreshCacheStep : LoopEvent → Option GoErr
  | .cancelled ctxErr => some ctxErr
  | .tick hydrateRes seekRes =>
      match hydrateRes with
      | some _err => none
      | none =>
          match seekRes with
          | .error _err => none
          | .ok _n => none

/-- `Service.refreshCache` run over a finite prefix of wake-up events: the
error it has returned with, or `none` while it is still looping. -/
def refreshCacheRun : List LoopEvent → Option GoErr
  | [] => none
  | ev :: rest =>
      match refreshCacheStep ev with
      | some err => some err
      | none => refreshCacheRun rest

/-- `true` exactly for the `ctx.Done()` arm of the select (diag.go line 234). -/
def LoopEvent.isCancellation : LoopEvent → Bool
  | .cancelled _ => true
  | .tick _ _ => false

/-- The 20-byte wire frame of one record: its key bytes followed by the
big-endian interval, exactly the two chunks `writeDiagnosisKeys` emits per
key (diag.go lines 194 and 200). -/
def frameBytes (k : DiagnosisKey) : List Nat :=
  k.temporaryExposureKey ++ putUint32 k.eNIntervalNumber

/-- A record whose fields are all at their Go zero values. -/
def keyZero : DiagnosisKey :=
  { temporaryExposureKey := List.replicate 16 0
    eNIntervalNumber := 0
    uploadedAt := 0 }

/-- A well-formed record whose `UploadedAt` is not the zero time. -/
def keyUploaded1 : DiagnosisKey :=
  { temporaryExposureKey := List.replicate 16 0
    eNIntervalNumber := 0
    uploadedAt := 1 }

/-- A well-formed record with nontrivial key bytes and interval. -/
def keyWf : DiagnosisKey :=
  { temporaryExposureKey := List.replicate 16 1
    eNIntervalNumber := 258
    uploadedAt := 5 }

/-- A repository whose calls all succeed and that holds no records. -/
def repoAlwaysOk : Repository :=
  { storeDiagnosisKeys := fun _ _ => none
    findAllDiagnosisKeys := .ok []
    lastModified := .ok 0 }

/-- A repository whose write call fails with a database error. -/
def repoStoreFails : Repository :=
  { storeDiagnosisKeys := fun _ _ => some (.msg "pq: connection refused")
    findAllDiagnosisKeys := .ok []
    lastModified := .ok 0 }

/-- A repository that reports the no-records sentinel from
`FindAllDiagnosisKeys` (and from `LastModified`). -/
def repoFindAllNil : Repository :=
  { storeDiagnosisKeys := fun _ _ => none
    findAllDiagnosisKeys := .error .nilDiagKeys
    lastModified := .error .nilDiagKeys }

/-- A repository that finds an empty record set but whose `LastModified`
reports the no-records sentinel. -/
def repoEmptyNilLastMod : Repository :=
  { storeDiagnosisKeys := fun _ _ => none
    findAllDiagnosisKeys := .ok []
    lastModified := .error .nilDiagKeys }

/-- A service configured with a maximum upload batch size of 1. -/
def svcLimitOne : Service :=
  { repo := repoAlwaysOk
    cache := MemoryCache.empty
    maxUploadBatchSize := 1
    logger := () }

/-- A service whose repository write fails. -/
def svcStoreFails : Service :=
  { repo := repoStoreFails
    cache := MemoryCache.empty
    maxUploadBatchSize := defaultMaxUploadBatchSize
    logger := () }

/-- A service whose repository reports the sentinel from
`FindAllDiagnosisKeys`. -/
def svcFindAllNil : Service :=
  { repo := repoFindAllNil
    cache := MemoryCache.empty
    maxUploadBatchSize := defaultMaxUploadBatchSize
    logger := () }

/-- A service whose repository reports the sentinel only from
`LastModified`. -/
def svcEmptyNilLastMod : Service :=
  { repo := repoEmptyNilLastMod
    cache := MemoryCache.empty
    maxUploadBatchSize := defaultMaxUploadBatchSize
    logger := () }

/-- A two-record batch, longer than the `svcLimitOne` limit of 1. -/
def batchTwo : List DiagnosisKey :=
  [keyZero, keyWf]

/-- A configuration leaving `Cache` and `MaxUploadBatchSize` unset. -/
def cfgDefault : Config :=
  { repository := repoAlwaysOk
    cache := none
    maxUploadBatchSize := 0
    logger := some () }

/-- The service `NewService cfgDefault` constructs. -/
def svcDefault : Service :=
  { repo := repoAlwaysOk
    cache := MemoryCache.empty
    maxUploadBatchSize := defaultMaxUploadBatchSize
    logger := () }

/-- A configuration with a nil `Logger` and every other recognized option
populated or defaulted. -/
def cfgNoLogger : Config :=
  { repository := repoAlwaysOk
    cache := none
    maxUploadBatchSize := 0
    logger := none }

/-- A wake-up sequence with a failed hydration tick, a failed seek tick and
a successful tick, and no cancellation. -/
def evsNoCancel : List LoopEvent :=
  [LoopEvent.tick (some (GoErr.msg "db down")) (Except.ok 0),
   LoopEvent.tick none (Except.error (GoErr.msg "seek failed")),
   LoopEvent.tick none (Except.ok 40)]

lemma putUint32_length (n : Nat) : (putUint32 n).length = 4 := rfl

lemma uint32BE_putUint32 (n : Nat) (h : n < 2 ^ 32) : uint32BE (putUint32 n) = n := by
  simp only [uint32BE, putUint32, List.getD_cons_zero, List.getD_cons_succ]
  norm_num
  omega

lemma frameBytes_length (k : DiagnosisKey) (h : k.temporaryExposureKey.length = 16) :
    (frameBytes k).length = 20 := by
  simp [frameBytes, h, putUint32]

lemma writeDiagnosisKeys_eq_flatten (rs : List DiagnosisKey) :
    writeDiagnosisKeys rs = (rs.map frameBytes).flatten := by
  induction rs with
  | nil => rfl
  | cons k rest ih =>
      simp [writeDiagnosisKeys, frameBytes, ih]

lemma decodeFrame_frameBytes (k : DiagnosisKey) (hk : WellFormedKey k) :
    decodeFrame (frameBytes k) = clearUploadedAt k := by
  obtain ⟨key, enin, up⟩ := k
  obtain ⟨h16, -, hlt⟩ := hk
  simp only [DiagnosisKey.temporaryExposureKey] at h16
  simp only [DiagnosisKey.eNIntervalNumber] at hlt
  unfold decodeFrame frameBytes clearUploadedAt
  simp only
  rw [List.take_append_of_le_length (by omega), List.take_of_length_le (by omega)]
  rw [show (16 : Nat) = key.length from h16.symm, List.drop_left,
      List.take_of_length_le (le_of_eq (putUint32_length enin)),
      uint32BE_putUint32 enin hlt]

lemma parseLoop_nil : parseLoop [] = [] := rfl

lemma parseLoop_append (f rest : List Nat) (hf : f.length = 20) :
    parseLoop (f ++ rest) = decodeFrame f :: parseLoop rest := by
  have hdrop : ∀ m : Nat, (f ++ rest).drop (20 + m) = rest.drop m := by
    intro m
    rw [show (20 : Nat) + m = f.length + m by rw [hf], List.drop_append]
  unfold parseLoop
  rw [show (f ++ rest).length = 20 + rest.length by simp [hf]]
  rw [show (20 + rest.length) / DiagnosisKeySize = rest.length / DiagnosisKeySize + 1 by
        unfold DiagnosisKeySize; omega]
  rw [List.range_succ_eq_map, List.map_cons, List.map_map]
  congr 1
  · show DiagnosisKey.mk _ _ _ = decodeFrame f
    unfold decodeFrame
    simp only [Nat.zero_mul, List.drop_zero, Nat.zero_add]
    rw [List.take_append_of_le_length (by omega),
        List.drop_append_of_le_length (by omega),
        List.take_append_of_le_length (by rw [List.length_drop, hf])]
  · apply List.map_congr_left
    intro i _
    show DiagnosisKey.mk _ _ _ = DiagnosisKey.mk _ _ _
    have e1 : Nat.succ i * DiagnosisKeySize = 20 + i * DiagnosisKeySize := by
      unfold DiagnosisKeySize; omega
    have e2 : 20 + i * DiagnosisKeySize + 16 = 20 + (i * DiagnosisKeySize + 16) := by
      omega
    rw [e1, e2, hdrop, hdrop]

lemma flatten_length_of_frames (frames : List (List Nat))
    (h : ∀ f ∈ frames, f.length = 20) :
    frames.flatten.length = 20 * frames.length := by
  induction frames with
  | nil => rfl
  | cons f rest ih =>
      rw [List.flatten_cons, List.length_append, h f (List.mem_cons_self f rest),
          ih (fun g hg => h g (List.mem_cons_of_mem f hg)), List.length_cons]
      ring

lemma parseLoop_flatten (frames : List (List Nat)) (h : ∀ f ∈ frames, f.length = 20) :
    parseLoop frames.flatten = frames.map decodeFrame := by
  induction frames with
  | nil => exact parseLoop_nil
  | cons f rest ih =>
      rw [List.flatten_cons, parseLoop_append f rest.flatten (h f (List.mem_cons_self f rest)),
          ih (fun g hg => h g (List.mem_cons_of_mem f hg)), List.map_cons]

lemma ParseDiagnosisKeysBuf_flatten (frames : List (List Nat)) (hne : frames ≠ [])
    (h : ∀ f ∈ frames, f.length = 20) :
    ParseDiagnosisKeysBuf frames.flatten = .ok (frames.map decodeFrame) := by
  have hlen := flatten_length_of_frames frames h
  have hpos : frames.length ≠ 0 := fun h0 => hne (List.length_eq_zero.mp h0)
  simp only [ParseDiagnosisKeysBuf]
  rw [hlen]
  rw [if_neg (by omega), if_neg (by unfold DiagnosisKeySize; omega)]
  rw [parseLoop_flatten frames h]

lemma writeDiagnosisKeysW_of_ok (write : List Nat → Option GoErr)
    (hw : ∀ bs, write bs = none) (ks : List DiagnosisKey) :
    writeDiagnosisKeysW write ks = none := by
  induction ks with
  | nil => rfl
  | cons k rest ih => simp [writeDiagnosisKeysW, hw, ih]

lemma writeDiagnosisKeysW_of_err (write : List Nat → Option GoErr)
    (ks : List DiagnosisKey) (err : GoErr)
    (h : writeDiagnosisKeysW write ks = some err) :
    ∃ bs, write bs = some err := by
  induction ks with
  | nil => exact absurd h (by simp [writeDiagnosisKeysW])
  | cons k rest ih =>
      unfold writeDiagnosisKeysW at h
      cases h1 : write k.temporaryExposureKey with
      | some e =>
          rw [h1] at h
          exact ⟨k.temporaryExposureKey, h1.trans (congrArg some (Option.some_inj.mp h))⟩
      | none =>
          rw [h1] at h
          cases h2 : write (putUint32 k.eNIntervalNumber) with
          | some e =>
              rw [h2] at h
              exact ⟨putUint32 k.eNIntervalNumber,
                h2.trans (congrArg some (Option.some_inj.mp h))⟩
          | none =>
              rw [h2] at h
              exact ih h

lemma refreshCacheStep_tick (hydrateRes : Option GoErr) (seekRes : Except GoErr Int) :
    refreshCacheStep (.tick hydrateRes seekRes) = none := by
  cases hydrateRes with
  | some e => rfl
  | none => cases seekRes <;> rfl

lemma refreshCacheRun_no_cancel (evs : List LoopEvent)
    (h : ∀ ev ∈ evs, ev.isCancellation = false) :
    refreshCacheRun evs = none := by
  induction evs with
  | nil => rfl
  | cons ev rest ih =>
      cases ev with
      | cancelled e =>
          exact absurd (h _ (List.mem_cons_self _ _)) (by simp [LoopEvent.isCancellation])
      | tick hr sr =>
          simp only [refreshCacheRun, refreshCacheStep_tick]
          exact ih fun g hg => h g (List.mem_cons_of_mem _ hg)

lemma refreshCacheRun_some (evs : List LoopEvent) (r : GoErr)
    (h : refreshCacheRun evs = some r) :
    LoopEvent.cancelled r ∈ evs := by
  induction evs with
  | nil => exact absurd h (by simp [refreshCacheRun])
  | cons ev rest ih =>
      cases ev with
      | cancelled e =>
          have : e = r := by
            simpa [refreshCacheRun, refreshCacheStep] using h
          rw [← this]
          exact List.mem_cons_self _ _
      | tick hr sr =>
          simp only [refreshCacheRun, refreshCacheStep_tick] at h
          exact List.mem_cons_of_mem _ (ih h)

lemma NewService_ok_inv (cfg : Config) (svc : Service) (h : NewService cfg = .ok svc) :
    svc = { repo := cfg.repository
            cache := match cfg.cache with
              | none => MemoryCache.empty
              | some c => c
            maxUploadBatchSize :=
              if cfg.maxUploadBatchSize = 0 then defaultMaxUploadBatchSize
              else cfg.maxUploadBatchSize
            logger := () } := by
  by_cases hl : cfg.logger = none
  · rw [NewService, if_pos hl] at h
    exact absurd h (by simp)
  · rw [NewService, if_neg hl] at h
    simp only at h
    split at h
    · exact absurd h (by simp)
    · split at h
      · exact absurd h (by simp)
      · injection h with h2
        exact h2.symm

/-- Claim C1 counterexample: with a maximum upload batch size of 1 and a
repository whose write succeeds, `Service.StoreDiagnosisKeys` on a
two-record batch neither returns `ErrMaxUploadExceeded` nor skips the
repository write: it returns nil and writes the batch. -/
theorem claim_C1_counterexample :
    batchTwo.length > svcLimitOne.MaxUploadBatchSize ∧
    ¬ ((svcLimitOne.StoreDiagnosisKeys 0 batchTwo).result = some GoErr.maxUploadExceeded ∧
       (svcLimitOne.StoreDiagnosisKeys 0 batchTwo).repoWrites = []) ∧
    (svcLimitOne.StoreDiagnosisKeys 0 batchTwo).result = none ∧
    (svcLimitOne.StoreDiagnosisKeys 0 batchTwo).repoWrites = [(batchTwo, 0)] := by
  decide

/-- Claim C1 (amended): `Service.StoreDiagnosisKeys` performs no batch-size
check. For every batch whose length exceeds `MaxUploadBatchSize()`, it still
performs the repository write with that batch and returns the result of the
repository to the caller; `ErrMaxUploadExceeded` is never produced by the
service itself. -/
theorem claim_C1_no_size_check (s : Service) (now : Int) (diagKeys : List DiagnosisKey)
    (_h : diagKeys.length > s.MaxUploadBatchSize) :
    (s.StoreDiagnosisKeys now diagKeys).result = s.repo.storeDiagnosisKeys diagKeys now ∧
    (s.StoreDiagnosisKeys now diagKeys).repoWrites = [(diagKeys, now)] := by
  cases hrec : s.repo.storeDiagnosisKeys diagKeys now <;>
    simp [Service.StoreDiagnosisKeys, hrec]

/-- Claim C1 witness: the amended statement instantiated at `svcLimitOne`
and the two-record batch. -/
theorem claim_C1_witness :
    batchTwo.length > svcLimitOne.MaxUploadBatchSize ∧
    ((svcLimitOne.StoreDiagnosisKeys 0 batchTwo).result =
        svcLimitOne.repo.storeDiagnosisKeys batchTwo 0 ∧
      (svcLimitOne.StoreDiagnosisKeys 0 batchTwo).repoWrites = [(batchTwo, 0)]) :=
  ⟨by decide, claim_C1_no_size_check svcLimitOne 0 batchTwo (by decide)⟩

/-- Claim C2 counterexample: with a repository whose write succeeds,
`Service.StoreDiagnosisKeys` on the empty batch neither returns
`ErrNilDiagKeys` nor skips the repository write: it returns nil and writes
the empty batch. -/
theorem claim_C2_counterexample :
    ¬ ((svcLimitOne.StoreDiagnosisKeys 0 []).result = some GoErr.nilDiagKeys ∧
       (svcLimitOne.StoreDiagnosisKeys 0 []).repoWrites = []) ∧
    (svcLimitOne.StoreDiagnosisKeys 0 []).result = none ∧
    (svcLimitOne.StoreDiagnosisKeys 0 []).repoWrites = [([], 0)] := by
  decide

/-- Claim C2 (amended): `Service.StoreDiagnosisKeys` performs no empty-input
check. For the empty batch it still performs the repository write and
returns the result of the repository; `ErrNilDiagKeys` is never produced by the
service itself. -/
theorem claim_C2_no_empty_check (s : Service) (now : Int) :
    (s.StoreDiagnosisKeys now []).result = s.repo.storeDiagnosisKeys [] now ∧
    (s.StoreDiagnosisKeys now []).repoWrites = [([], now)] := by
  cases hrec : s.repo.storeDiagnosisKeys [] now <;>
    simp [Service.StoreDiagnosisKeys, hrec]

/-- Claim C3 counterexample: the round trip fails as stated both on the
empty sequence (decoding the empty buffer is `io.ErrUnexpectedEOF`, not the
empty sequence) and on a well-formed record with a nonzero `UploadedAt`
(decoding resets `UploadedAt` to the zero time). -/
theorem claim_C3_counterexample :
    ParseDiagnosisKeys { buf := writeDiagnosisKeys [], err := none } ≠
      .ok ([] : List DiagnosisKey) ∧
    WellFormedKey keyUploaded1 ∧
    ParseDiagnosisKeys { buf := writeDiagnosisKeys [keyUploaded1], err := none } ≠
      .ok [keyUploaded1] := by
  decide

/-- Claim C3 (amended): for every nonempty sequence `rs` of well-formed
records, `ParseDiagnosisKeys` applied to the bytes produced by
`writeDiagnosisKeys rs` succeeds and yields `rs` with the `UploadedAt` of
every record reset to the zero time — hence yields `rs` itself exactly when
the `UploadedAt` of each record is the zero value. -/
theorem claim_C3_roundtrip (rs : List DiagnosisKey) (hne : rs ≠ [])
    (hwf : ∀ k ∈ rs, WellFormedKey k) :
    ParseDiagnosisKeys { buf := writeDiagnosisKeys rs, err := none } =
      .ok (rs.map clearUploadedAt) := by
  have hframes : ∀ f ∈ rs.map frameBytes, f.length = 20 := by
    intro f hf
    obtain ⟨k, hk, rfl⟩ := List.mem_map.mp hf
    exact frameBytes_length k (hwf k hk).1
  have hne2 : rs.map frameBytes ≠ [] := by
    simpa using hne
  show ParseDiagnosisKeysBuf (writeDiagnosisKeys rs) = _
  rw [writeDiagnosisKeys_eq_flatten, ParseDiagnosisKeysBuf_flatten _ hne2 hframes,
      List.map_map]
  exact congrArg Except.ok
    (List.map_congr_left fun k hk => decodeFrame_frameBytes k (hwf k hk))

/-- Claim C3 witness: the amended round trip at the one-record sequence
`[keyWf]` (nonzero key bytes and interval, `UploadedAt` nonzero so the reset
is visible). -/
theorem claim_C3_witness :
    ParseDiagnosisKeys { buf := writeDiagnosisKeys [keyWf], err := none } =
      .ok ([keyWf].map clearUploadedAt) :=
  claim_C3_roundtrip [keyWf] (by decide) (by decide)

/-- Claim C4: on a fault-free read, `ParseDiagnosisKeys` returns
`io.ErrUnexpectedEOF` exactly when the input length is zero or not a
multiple of `DiagnosisKeySize` = 20, it returns no other error, and on an
input that is the concatenation of `k ≥ 1` frames of 20 bytes it returns
exactly the `k` records decoded from those frames in input order. -/
theorem claim_C4_parse (buf : List Nat) (frames : List (List Nat)) :
    (ParseDiagnosisKeys { buf := buf, err := none } = .error GoErr.unexpectedEOF ↔
      buf.length = 0 ∨ buf.length % DiagnosisKeySize ≠ 0) ∧
    (∀ e, ParseDiagnosisKeys { buf := buf, err := none } = .error e →
      e = GoErr.unexpectedEOF) ∧
    (frames ≠ [] → (∀ f ∈ frames, f.length = DiagnosisKeySize) →
      ParseDiagnosisKeys { buf := frames.flatten, err := none } =
        .ok (frames.map decodeFrame)) := by
  refine ⟨?_, ?_, ?_⟩
  · show ParseDiagnosisKeysBuf buf = _ ↔ _
    simp only [ParseDiagnosisKeysBuf]
    by_cases h0 : buf.length = 0
    · simp [h0]
    · by_cases hm : buf.length % DiagnosisKeySize ≠ 0
      · simp [h0, hm]
      · simp [h0, hm]
  · intro e he
    have he2 : ParseDiagnosisKeysBuf buf = .error e := he
    simp only [ParseDiagnosisKeysBuf] at he2
    by_cases h0 : buf.length = 0
    · rw [if_pos h0] at he2
      exact (Except.error.injEq .. ▸ he2).symm
    · rw [if_neg h0] at he2
      by_cases hm : buf.length % DiagnosisKeySize ≠ 0
      · rw [if_pos hm] at he2
        exact (Except.error.injEq .. ▸ he2).symm
      · rw [if_neg hm] at he2
        exact absurd he2 (by simp)
  · intro hne hlen
    show ParseDiagnosisKeysBuf frames.flatten = _
    exact ParseDiagnosisKeysBuf_flatten frames hne hlen

/-- Claim C4 witness: the frame decomposition instantiated at a single
20-byte frame. -/
theorem claim_C4_witness :
    ParseDiagnosisKeys ⟨([List.replicate 20 0] : List (List Nat)).flatten, none⟩ =
      .ok ([List.replicate 20 0].map decodeFrame) :=
  (claim_C4_parse [] [List.replicate 20 0]).2.2 (by decide) (by decide)

/-- Claim C5 counterexample: when the repository reports the sentinel
`ErrNilDiagKeys` from `FindAllDiagnosisKeys`, `hydrateCache` does not treat
it as benign: it returns that error. -/
theorem claim_C5_counterexample :
    svcFindAllNil.repo.findAllDiagnosisKeys = .error GoErr.nilDiagKeys ∧
    svcFindAllNil.hydrateCache = some GoErr.nilDiagKeys ∧
    svcFindAllNil.hydrateCache ≠ none := by
  decide

/-- Claim C5 (amended): only the sentinel reported by `LastModified` is
benign: whenever `FindAllDiagnosisKeys` succeeds and `LastModified` reports
`ErrNilDiagKeys`, `hydrateCache` returns success. (The same sentinel from
`FindAllDiagnosisKeys` is propagated as a failure, per the
counterexample.) -/
theorem claim_C5_benign_last_modified (s : Service) (ks : List DiagnosisKey)
    (hfind : s.repo.findAllDiagnosisKeys = .ok ks)
    (hlast : s.repo.lastModified = .error .nilDiagKeys) :
    s.hydrateCache = none := by
  unfold Service.hydrateCache
  rw [hfind, hlast]
  simp

/-- Claim C5 witness: the amended statement at a service whose repository
finds no records and reports the sentinel from `LastModified`. -/
theorem claim_C5_witness : svcEmptyNilLastMod.hydrateCache = none :=
  claim_C5_benign_last_modified svcEmptyNilLastMod [] rfl rfl

/-- Claim C6: `writeDiagnosisKeys` emits exactly, per record in input order,
the 16 key bytes of the record followed by the 4 big-endian bytes of its
interval, concatenated with nothing in between; and against an arbitrary
writer it fails exactly when a chunk write fails — never because of the
contents of the records. -/
theorem claim_C6_write (diagKeys : List DiagnosisKey)
    (hwf : ∀ k ∈ diagKeys, WellFormedKey k) :
    writeDiagnosisKeys diagKeys = (diagKeys.map frameBytes).flatten ∧
    (∀ k ∈ diagKeys,
      frameBytes k = k.temporaryExposureKey ++ putUint32 k.eNIntervalNumber ∧
      k.temporaryExposureKey.length = 16 ∧
      (putUint32 k.eNIntervalNumber).length = 4 ∧
      (frameBytes k).length = DiagnosisKeySize ∧
      uint32BE (putUint32 k.eNIntervalNumber) = k.eNIntervalNumber) ∧
    (∀ write : List Nat → Option GoErr, (∀ bs, write bs = none) →
      writeDiagnosisKeysW write diagKeys = none) ∧
    (∀ write : List Nat → Option GoErr, ∀ err : GoErr,
      writeDiagnosisKeysW write diagKeys = some err → ∃ bs, write bs = some err) := by
  refine ⟨writeDiagnosisKeys_eq_flatten diagKeys, ?_, ?_, ?_⟩
  · intro k hk
    obtain ⟨h16, -, hlt⟩ := hwf k hk
    exact ⟨rfl, h16, putUint32_length _, frameBytes_length k h16,
      uint32BE_putUint32 _ hlt⟩
  · intro write hw
    exact writeDiagnosisKeysW_of_ok write hw diagKeys
  · intro write err h
    exact writeDiagnosisKeysW_of_err write diagKeys err h

/-- Claim C6 witness: the frame decomposition at the one-record batch
`[keyWf]`. -/
theorem claim_C6_witness :
    writeDiagnosisKeys [keyWf] = ([keyWf].map frameBytes).flatten :=
  (claim_C6_write [keyWf] (by decide)).1

/-- Claim C7: when the repository write inside `Service.StoreDiagnosisKeys`
fails, that error is the synchronous result of the call and no cache `Add` is
triggered for the batch. -/
theorem claim_C7_store_failure (s : Service) (now : Int) (diagKeys : List DiagnosisKey)
    (err : GoErr) (h : s.repo.storeDiagnosisKeys diagKeys now = some err) :
    (s.StoreDiagnosisKeys now diagKeys).result = some err ∧
    (s.StoreDiagnosisKeys now diagKeys).cacheAdds = [] := by
  simp [Service.StoreDiagnosisKeys, h]

/-- Claim C7 witness: the statement at a service whose repository write
fails with a database error. -/
theorem claim_C7_witness :
    (svcStoreFails.StoreDiagnosisKeys 0 [keyZero]).result =
      some (GoErr.msg "pq: connection refused") ∧
    (svcStoreFails.StoreDiagnosisKeys 0 [keyZero]).cacheAdds = [] :=
  claim_C7_store_failure svcStoreFails 0 [keyZero] (GoErr.msg "pq: connection refused") rfl

/-- Claim C8: `NewService` rejects every configuration whose `Logger` is
nil, returning the logger error and no `Service`; so a configuration
populating only `Repository`, `Cache` and `MaxUploadBatchSize` cannot
construct a `Service`. -/
theorem claim_C8_nil_logger (cfg : Config) (h : cfg.logger = none) :
    NewService cfg = .error (GoErr.msg "diag: logger cannot be nil") ∧
    ∀ svc : Service, NewService cfg ≠ .ok svc := by
  have h1 : NewService cfg = .error (GoErr.msg "diag: logger cannot be nil") := by
    rw [NewService, if_pos h]
  exact ⟨h1, fun svc hok => by rw [h1] at hok; exact Except.noConfusion hok⟩

/-- Claim C8 witness: the statement at the configuration with every
spec-recognized option populated or defaulted and `Logger` left nil. -/
theorem claim_C8_witness :
    NewService cfgNoLogger = .error (GoErr.msg "diag: logger cannot be nil") :=
  (claim_C8_nil_logger cfgNoLogger rfl).1

/-- Claim C9: the `refreshCache` loop never exits on a tick — every tick
continues the loop whatever the hydration and seek results — a cancellation
wake-up returns the error of the context, over any finite wake-up sequence the
loop is still running if no wake-up was a cancellation, and whenever the
loop has returned an error that error came from a cancellation wake-up in
the sequence. -/
theorem claim_C9_refresh (evs : List LoopEvent) (e : GoErr) :
    (∀ hydrateRes seekRes, refreshCacheStep (.tick hydrateRes seekRes) = none) ∧
    refreshCacheStep (.cancelled e) = some e ∧
    ((∀ ev ∈ evs, ev.isCancellation = false) → refreshCacheRun evs = none) ∧
    (∀ r, refreshCacheRun evs = some r → LoopEvent.cancelled r ∈ evs) :=
  ⟨refreshCacheStep_tick, rfl, refreshCacheRun_no_cancel evs, refreshCacheRun_some evs⟩

/-- Claim C9 witness: a wake-up sequence with a failed hydration tick, a
failed seek tick and a successful tick leaves the loop running. -/
theorem claim_C9_witness : refreshCacheRun evsNoCancel = none :=
  (claim_C9_refresh evsNoCancel (GoErr.msg "context canceled")).2.2.1 (by decide)

/-- Claim C10: whenever `NewService` succeeds, a nil `cfg.Cache` has been
replaced by a fresh empty `MemoryCache`, and a zero
`cfg.MaxUploadBatchSize` makes `MaxUploadBatchSize()` report
`defaultMaxUploadBatchSize` = 14. -/
theorem claim_C10_defaults (cfg : Config) (svc : Service)
    (h : NewService cfg = .ok svc) :
    (cfg.cache = none → svc.cache = MemoryCache.empty) ∧
    (cfg.maxUploadBatchSize = 0 →
      svc.MaxUploadBatchSize = defaultMaxUploadBatchSize ∧
      svc.MaxUploadBatchSize = 14) := by
  have hinv := NewService_ok_inv cfg svc h
  constructor
  · intro hc
    rw [hinv]
    simp [hc]
  · intro hm
    rw [hinv]
    simp [Service.MaxUploadBatchSize, hm, defaultMaxUploadBatchSize]

/-- Claim C10 witness: `NewService` on the configuration with `Cache` and
`MaxUploadBatchSize` unset yields the service with the fresh empty memory
cache and the default limit 14. -/
theorem claim_C10_witness :
    svcDefault.cache = MemoryCache.empty ∧
    svcDefault.MaxUploadBatchSize = defaultMaxUploadBatchSize ∧
    svcDefault.MaxUploadBatchSize = 14 :=
  ⟨(claim_C10_defaults cfgDefault svcDefault rfl).1 rfl,
   (claim_C10_defaults cfgDefault svcDefault rfl).2 rfl⟩
